import Mathlib

/-!
Verification development for the nlp-chatbot FAQ-matching engine.

The definitions below are a shallow embedding of the Python sources
`rule_based_engine.py` and `nlp_engine.py`:
* Python floats are modelled as exact rationals (`ℚ`);
* Python strings are Lean `String`s, with character classes
  (`\w`, `\s`, `str.lower`) modelled over ASCII, which covers every
  character class the engine's regexes distinguish for ASCII input;
* `difflib.SequenceMatcher` (stdlib collaborator of
  `RuleBasedChatbot._calculate_similarity`) is embedded below as the
  same longest-matching-block computation it performs for inputs
  shorter than 200 characters (where CPython's autojunk heuristic is
  inactive and `isjunk=None`, as the engine constructs it);
* a CPython `set` has *no specified iteration order* (it iterates in
  hash-slot order, which for candidate indices need not be ascending
  once an index at least the table size collides): order-sensitive
  properties of the ranking are therefore stated over *every*
  admissible enumeration of the candidate set (`is_candidate_list`),
  and the executable `get_candidate_faqs` below picks the ascending
  enumeration only as one concrete representative — no order-sensitive
  theorem relies on that choice. A `dict` is a function with a default;
* the external sentence-transformer model of `NLPChatbot` is not part
  of the repository: the semantic matcher's per-entry similarity is a
  parameter (`sim`), and the semantic match list fed to the hybrid
  arbiter is a parameter of `HybridChatbot.get_response`, exactly the
  shape the Python code receives from `nlp_bot.find_best_match`.
-/

/-- A corpus entry, `{'question': ..., 'answer': ..., 'category': ...}`. -/
structure FAQ where
  question : String
  answer : String
  category : String
  deriving DecidableEq, Repr

instance : Inhabited FAQ := ⟨⟨"", "", ""⟩⟩

/-- Python `\s` for ASCII text: space, tab, newline, return, vertical tab, form feed. -/
def py_is_space (c : Char) : Bool :=
  c = ' ' || c = '\t' || c = '\n' || c = '\r' || c = '\x0b' || c = '\x0c'

/-- Python `\w` for ASCII text: letters, digits and underscore. -/
def py_is_word (c : Char) : Bool :=
  c.isAlphanum || c = '_'

/-- Python `str.strip()` (whitespace stripped from both ends). -/
def py_strip (s : String) : String :=
  String.mk (((s.toList.dropWhile py_is_space).reverse.dropWhile py_is_space).reverse)

/-- Splits a character list on whitespace, dropping empty pieces:
Python `str.split()` with no argument. -/
def py_split_ws : List Char → List Char → List String
  | [], acc => if acc = [] then [] else [String.mk acc.reverse]
  | c :: cs, acc =>
    if py_is_space c then
      if acc = [] then py_split_ws cs []
      else String.mk acc.reverse :: py_split_ws cs []
    else py_split_ws cs (c :: acc)

/-- The character substitution of `re.sub(r'[^\w\s\?]', ' ', text)`:
everything except word characters, whitespace and `?` becomes a space. -/
def subst_char (c : Char) : Char :=
  if py_is_word c || py_is_space c || c = '?' then c else ' '

/-- `RuleBasedChatbot._preprocess_text`: lowercase, replace punctuation
other than `?` by spaces, collapse whitespace runs to single spaces and
strip the ends (`re.sub(r'\s+', ' ', text).strip()`). -/
def preprocess_text (text : String) : String :=
  String.intercalate " " (py_split_ws ((text.toList.map Char.toLower).map subst_char) [])

/-- The fixed stop-word set of `RuleBasedChatbot._extract_keywords`. -/
def stop_words : List String :=
  ["a", "an", "and", "are", "as", "at", "be", "by", "for", "from",
   "has", "he", "in", "is", "it", "its", "of", "on", "that", "the",
   "to", "was", "will", "with", "i", "you", "can", "do", "how",
   "what", "when", "where", "which", "who", "why", "my", "me"]

/-- The words retained by `RuleBasedChatbot._extract_keywords`, in text
order with duplicates: `self._preprocess_text(text).split()` filtered by
`word not in stop_words and len(word) > 2`. -/
def extract_keywords_list (text : String) : List String :=
  (py_split_ws (preprocess_text text).toList []).filter
    (fun w => !(stop_words.contains w) && decide (2 < w.length))

/-- `RuleBasedChatbot._extract_keywords`: the keyword *set* (a Python
`set` comprehension over the filtered words). -/
def extract_keywords (text : String) : Finset String :=
  (extract_keywords_list text).toFinset

/-- One step of `RuleBasedChatbot._build_keyword_index`: register FAQ
index `i` under every keyword of `ks` (`index.setdefault`-style
append). The index is modelled as a total function defaulting to `[]`;
a key is present in the Python dict iff its list here is nonempty. -/
def index_insert (f : String → List Nat) (i : Nat) : List String → (String → List Nat)
  | [] => f
  | k :: ks => index_insert (fun q => if q = k then f q ++ [i] else f q) i ks

/-- The enumeration loop of `RuleBasedChatbot._build_keyword_index`,
carrying the running index `i` of `enumerate(self.faqs)`. -/
def build_index_from (f : String → List Nat) (i : Nat) : List FAQ → (String → List Nat)
  | [] => f
  | faq :: rest =>
    build_index_from (index_insert f i (extract_keywords_list faq.question).dedup) (i + 1) rest

/-- `RuleBasedChatbot._build_keyword_index`: maps each keyword of each
FAQ question to the list of FAQ indices containing it. -/
def build_keyword_index (faqs : List FAQ) : String → List Nat :=
  build_index_from (fun _ => []) 0 faqs

/-- `RuleBasedChatbot._keyword_match_score`: Jaccard similarity of the
two keyword sets, with 0 when the query has no keywords or the union is
empty. -/
def keyword_match_score (query faq_question : String) : ℚ :=
  let qk := extract_keywords query
  let fk := extract_keywords faq_question
  if qk = ∅ then 0
  else if qk ∪ fk = ∅ then 0
  else ((qk ∩ fk).card : ℚ) / ((qk ∪ fk).card : ℚ)

/-- State of difflib's `find_longest_match` search: the best block found
so far, `(besti, bestj, bestsize)`. -/
structure FLMState where
  besti : Nat
  bestj : Nat
  bestsize : Nat
  deriving DecidableEq, Repr

/-- difflib's `b2j` lookup restricted to the window: positions `j` of
`b` with `blo <= j < bhi` and `b[j] = c`, in ascending order (difflib's
`b2j` lists are ascending; the inner loop `continue`s below `blo` and
`break`s at `bhi`). -/
def b2j_positions (b : List Char) (c : Char) (blo bhi : Nat) : List Nat :=
  (List.range b.length).filter
    (fun j => decide (blo ≤ j) && decide (j < bhi) && decide (b.getD j ' ' = c))

/-- Body of the inner `for j in b2j[a[i]]` loop of `find_longest_match`:
extend the run ending at `(i, j)` using the previous row `j2len`, record
it in the new row, and update the best block when strictly longer. -/
def flm_j_step (j2len : Nat → Nat) (i : Nat) (acc : (Nat → Nat) × FLMState) (j : Nat) :
    (Nat → Nat) × FLMState :=
  let k := (if j = 0 then 0 else j2len (j - 1)) + 1
  let nj : Nat → Nat := fun x => if x = j then k else acc.1 x
  let st := if acc.2.bestsize < k then FLMState.mk (i + 1 - k) (j + 1 - k) k else acc.2
  (nj, st)

/-- The inner loop of `find_longest_match` for one row `i`: `newj2len`
starts empty and the previous row `j2len` is read. -/
def flm_row (j2len : Nat → Nat) (i : Nat) (js : List Nat) (st : FLMState) :
    (Nat → Nat) × FLMState :=
  js.foldl (flm_j_step j2len i) ((fun _ => 0), st)

/-- One iteration of the outer `for i in range(alo, ahi)` loop. -/
def flm_step (a b : List Char) (blo bhi : Nat) (acc : (Nat → Nat) × FLMState) (i : Nat) :
    (Nat → Nat) × FLMState :=
  flm_row acc.1 i (b2j_positions b (a.getD i ' ') blo bhi) acc.2

/-- difflib `SequenceMatcher.find_longest_match(alo, ahi, blo, bhi)`
with `isjunk=None` and no autojunk (the junk extension loops are no-ops
then, and the dynamic program below already returns maximal blocks,
earliest in `a` then earliest in `b`). -/
def find_longest_match (a b : List Char) (alo ahi blo bhi : Nat) : FLMState :=
  ((List.range' alo (ahi - alo)).foldl (flm_step a b blo bhi)
    ((fun _ => 0), FLMState.mk alo blo 0)).2

/-- Total size of difflib's matching blocks for the window
`a[alo:ahi]` / `b[blo:bhi]`: recursively split around the longest
match, as `get_matching_blocks` does. `fuel` bounds the recursion
depth; every call shrinks the combined window size, so any fuel of at
least `(ahi - alo) + (bhi - blo)` computes the exact value. -/
def match_total (a b : List Char) : Nat → Nat → Nat → Nat → Nat → Nat
  | 0, _, _, _, _ => 0
  | fuel + 1, alo, ahi, blo, bhi =>
    let st := find_longest_match a b alo ahi blo bhi
    if st.bestsize = 0 then 0
    else
      match_total a b fuel alo st.besti blo st.bestj + st.bestsize +
        match_total a b fuel (st.besti + st.bestsize) ahi (st.bestj + st.bestsize) bhi

/-- difflib `SequenceMatcher.ratio()`: `2.0 * M / T` where `M` is the
total size of the matching blocks and `T` the total length, and `1.0`
when both sequences are empty (`_calculate_ratio`). -/
def sequence_ratio (a b : List Char) : ℚ :=
  let t := a.length + b.length
  if t = 0 then 1
  else 2 * (match_total a b t 0 a.length 0 b.length : ℚ) / (t : ℚ)

/-- `RuleBasedChatbot._calculate_similarity`: preprocess both texts and
take `SequenceMatcher(None, text1, text2).ratio()`. -/
def calculate_similarity (text1 text2 : String) : ℚ :=
  sequence_ratio (preprocess_text text1).toList (preprocess_text text2).toList

/-- The per-candidate combined score of
`RuleBasedChatbot.find_best_match`: 60% keyword Jaccard score, 40%
character-sequence similarity. -/
def combined_score (query faq_question : String) : ℚ :=
  0.6 * keyword_match_score query faq_question + 0.4 * calculate_similarity query faq_question

/-- The candidate *set* of `RuleBasedChatbot._get_candidate_faqs`: the
union over the query's keywords of the indexed FAQ-id sets. -/
def candidate_set (idx : String → List Nat) (query : String) : Finset Nat :=
  (extract_keywords query).biUnion (fun k => (idx k).toFinset)

/-- The lists `RuleBasedChatbot._get_candidate_faqs` can return: when
the candidate set is empty, exactly `list(range(len(self.faqs)))` (a
deterministic, corpus-ordered list); otherwise `list(candidates)` for a
CPython `set`, i.e. *some* duplicate-free enumeration of the candidate
set — CPython iterates sets in hash-slot order, which is not specified
and need not be ascending, so every such enumeration is admissible. -/
def is_candidate_list (idx : String → List Nat) (n : Nat) (query : String)
    (cands : List Nat) : Prop :=
  (candidate_set idx query = ∅ ∧ cands = List.range n) ∨
  (candidate_set idx query ≠ ∅ ∧ cands.Nodup ∧ cands.toFinset = candidate_set idx query)

/-- `RuleBasedChatbot._get_candidate_faqs`: union over the query's
keywords of the indexed FAQ-id lists; if the union is empty, all FAQ
indices (`list(range(len(self.faqs)))`). This executable instance
enumerates the set ascending — one admissible order among those of
`is_candidate_list`; no theorem about tie-breaking relies on this
choice of enumeration order. -/
def get_candidate_faqs (idx : String → List Nat) (n : Nat) (query : String) : List Nat :=
  let cands : Finset Nat := (extract_keywords query).biUnion (fun k => (idx k).toFinset)
  if cands = ∅ then List.range n else cands.sort (· ≤ ·)

/-- A scored candidate: the tuple `(faq, combined_score)` of
`find_best_match`, together with the corpus index it came from. -/
structure Scored where
  idx : Nat
  faq : FAQ
  score : ℚ
  deriving DecidableEq, Repr

/-- Python's stable `list.sort(key=lambda x: x[1], reverse=True)`:
descending by score, equal scores keep their relative input order. -/
def stable_sort_desc (l : List Scored) : List Scored :=
  l.insertionSort (fun x y => y.score ≤ x.score)

/-- The scored candidate list built by the loop of
`RuleBasedChatbot.find_best_match`, in the order of the given candidate
enumeration `cands`. -/
def scored_candidates_with (faqs : List FAQ) (cands : List Nat) (query : String) :
    List Scored :=
  cands.map
    (fun i => Scored.mk i (faqs.getD i default) (combined_score query (faqs.getD i default).question))

/-- `RuleBasedChatbot.find_best_match(query, top_k)` for a given
candidate enumeration: score the candidates, stable-sort descending by
score, return the first `top_k`. -/
def find_best_match_with (faqs : List FAQ) (cands : List Nat) (query : String)
    (top_k : Nat) : List Scored :=
  (stable_sort_desc (scored_candidates_with faqs cands query)).take top_k

/-- The scored candidate list of `RuleBasedChatbot.find_best_match` at
the executable candidate enumeration. -/
def scored_candidates (faqs : List FAQ) (idx : String → List Nat) (query : String) :
    List Scored :=
  scored_candidates_with faqs (get_candidate_faqs idx faqs.length query) query

/-- `RuleBasedChatbot.find_best_match(query, top_k)`: score the
candidates, stable-sort descending by score, return the first `top_k`. -/
def RuleBasedChatbot.find_best_match (faqs : List FAQ) (idx : String → List Nat)
    (query : String) (top_k : Nat) : List Scored :=
  (stable_sort_desc (scored_candidates faqs idx query)).take top_k

/-- One entry of `RuleBasedChatbot.conversation_history`:
`{'query': ..., 'response': ..., 'score': ...}`. -/
structure HistRecord where
  query : String
  response : String
  score : ℚ
  deriving DecidableEq, Repr

/-- The state of a `RuleBasedChatbot` instance: the corpus, the
confidence threshold, the keyword index built at `__init__`, and the
conversation history. -/
structure RuleBasedChatbot where
  faqs : List FAQ
  threshold : ℚ
  keyword_index : String → List Nat
  conversation_history : List HistRecord

/-- `RuleBasedChatbot.__init__(faqs, threshold)`: stores the corpus and
threshold, starts with an empty history, builds the keyword index. -/
def RuleBasedChatbot.init (faqs : List FAQ) (threshold : ℚ) : RuleBasedChatbot :=
  ⟨faqs, threshold, build_keyword_index faqs, []⟩

/-- The empty-query reply of `RuleBasedChatbot.get_response`. -/
def rule_empty_query_msg : String :=
  "I didn\x27t catch that. Could you please rephrase your question?"

/-- `RuleBasedChatbot._get_fallback_response(similar_questions)`; an
empty list behaves like Python's `None` (both are falsy). -/
def rule_fallback (similar_questions : List String) : String :=
  let base := "I\x27m not quite sure about that. "
  if similar_questions = [] then
    base ++ "Could you please rephrase your question or try asking something else?"
  else
    base ++ "Did you mean to ask about:\n" ++
      String.join (similar_questions.enum.map
        (fun p => toString (p.1 + 1) ++ ". " ++ p.2 ++ "\n")) ++
      "\nPlease rephrase your question or try one of these."

/-- `RuleBasedChatbot.get_response(query)` (with the default
`return_confidence=False`): empty-query guard on the *raw* stripped
query, then top-3 matching, one history append, then the threshold
check. Returns the reply and the updated chatbot state. -/
def RuleBasedChatbot.get_response (bot : RuleBasedChatbot) (query : String) :
    String × RuleBasedChatbot :=
  if py_strip query = "" then (rule_empty_query_msg, bot)
  else
    match RuleBasedChatbot.find_best_match bot.faqs bot.keyword_index query 3 with
    | [] => (rule_fallback [], bot)
    | best :: rest =>
      let bot' := { bot with
        conversation_history :=
          bot.conversation_history ++ [HistRecord.mk query best.faq.answer best.score] }
      if best.score < bot.threshold then
        (rule_fallback (((best :: rest).take 2).map (fun m => m.faq.question)), bot')
      else
        (best.faq.answer, bot')

/-- `NLPChatbot.find_best_match(query, top_k)`: the semantic matcher
scores *every* corpus entry (no index) with the cosine similarity `sim
i` of the external embedding model, stable-sorts descending, takes
`top_k`. The embedding model lives outside the repository, so the
per-entry similarity is a parameter. -/
def NLPChatbot.find_best_match (faqs : List FAQ) (sim : Nat → ℚ) (top_k : Nat) :
    List Scored :=
  (stable_sort_desc ((List.range faqs.length).map
    (fun i => Scored.mk i (faqs.getD i default) (sim i)))).take top_k

/-- One entry of `HybridChatbot.conversation_history`:
`{'query': ..., 'response': ..., 'score': ..., 'method': ...}`. -/
structure HybridRecord where
  query : String
  response : String
  score : ℚ
  method : String
  deriving DecidableEq, Repr

/-- The no-answer reply of `HybridChatbot.get_response`. -/
def hybrid_no_answer_msg : String :=
  "I couldn\x27t find a good answer. Please rephrase your question."

/-- `HybridChatbot.get_response(query)` (default
`return_confidence=False`). `rule_matches` and `nlp_matches` are the
`top_k=1` results of the two sub-bots, as `(faq, score)` pairs — the
semantic one is produced by the external embedding model. Selection: the
rule-based result wins iff its weighted score is strictly greater *and*
it exists; otherwise any semantic result wins; otherwise the no-answer
reply, with no history append. The logged and displayed score is the
chosen method's raw unweighted score. -/
def HybridChatbot.get_response (query : String) (rule_matches nlp_matches : List (FAQ × ℚ))
    (rule_weight nlp_weight : ℚ) (hist : List HybridRecord) :
    String × List HybridRecord :=
  let rule_score : ℚ := ((rule_matches.headD (default, 0)).2)
  let nlp_score : ℚ := ((nlp_matches.headD (default, 0)).2)
  let rule_weighted := rule_score * rule_weight
  let nlp_weighted := nlp_score * nlp_weight
  if nlp_weighted < rule_weighted ∧ rule_matches ≠ [] then
    let best := (rule_matches.headD (default, 0)).1
    (best.answer, hist ++ [HybridRecord.mk query best.answer rule_score "rule-based"])
  else if nlp_matches ≠ [] then
    let best := (nlp_matches.headD (default, 0)).1
    (best.answer, hist ++ [HybridRecord.mk query best.answer nlp_score "semantic"])
  else
    (hybrid_no_answer_msg, hist)

/-- The hybrid pipeline with the rule-based side computed by the real
lexical matcher (`self.rule_bot.find_best_match(query, top_k=1)`) and
the semantic side a parameter: exactly the first two lines of
`HybridChatbot.get_response` with the weights defaulting to 0.3/0.7 at
construction. -/
def HybridChatbot.resolve (rule_bot : RuleBasedChatbot) (query : String)
    (nlp_matches : List (FAQ × ℚ)) (rule_weight nlp_weight : ℚ)
    (hist : List HybridRecord) : String × List HybridRecord :=
  HybridChatbot.get_response query
    ((RuleBasedChatbot.find_best_match rule_bot.faqs rule_bot.keyword_index query 1).map
      (fun s => (s.faq, s.score)))
    nlp_matches rule_weight nlp_weight hist

instance : IsTotal Scored (fun x y => y.score ≤ x.score) :=
  ⟨fun a b => le_total b.score a.score⟩

instance : IsTrans Scored (fun x y => y.score ≤ x.score) :=
  ⟨fun _ _ _ h1 h2 => le_trans h2 h1⟩

/-- The tie-break order: whenever two scored candidates have equal
scores, the first one comes from an earlier corpus position. -/
def tie_lt (x y : Scored) : Prop := x.score = y.score → x.idx < y.idx

/-- Row invariant of the matching dynamic program: every nonzero run
length recorded in `j2len` ends inside the `b`-window and is bounded by
the distance to each window start. -/
def JBound (blo bhi bnd : Nat) (J : Nat → Nat) : Prop :=
  ∀ j, J j ≠ 0 → blo ≤ j ∧ j < bhi ∧ J j ≤ j + 1 - blo ∧ J j ≤ bnd

/-- The best block is either still the initial sentinel or a real block
lying inside the search window. -/
def StOk (alo ahi blo bhi : Nat) (st : FLMState) : Prop :=
  st = FLMState.mk alo blo 0 ∨
  (1 ≤ st.bestsize ∧ alo ≤ st.besti ∧ st.besti + st.bestsize ≤ ahi ∧
   blo ≤ st.bestj ∧ st.bestj + st.bestsize ≤ bhi)

/-- Concrete entry used for witnesses: a password-reset FAQ. -/
def reset_faq : FAQ :=
  FAQ.mk "reset password" "Click Forgot Password." "account"

/-- Concrete entry whose question shares no keyword and no character
with the test queries below. -/
def zzz_faq : FAQ :=
  FAQ.mk "zzz" "Z answer" "general"

/-- Concrete entry (corpus position 9 below) whose question shares the
keyword `"aaa"` with the tie query. -/
def aaa_ccc_faq : FAQ :=
  FAQ.mk "aaa ccc" "answer nine" "general"

/-- Concrete entry (corpus position 1 below) whose question shares the
keyword `"bbb"` with the tie query. -/
def ccc_bbb_faq : FAQ :=
  FAQ.mk "ccc bbb" "answer one" "general"

/-- A ten-entry corpus whose candidate set for the query `"aaa bbb"` is
`{1, 9}` with equal combined scores: entry 1 is reached only through
keyword `"bbb"` and entry 9 only through keyword `"aaa"`, so the CPython
candidate set can be built 9-first (keyword-set iteration order is
hash-randomized) and then iterates in slot order `[9, 1]` (9 occupies
slot `9 mod 8 = 1`; 1 collides there and probes to a later slot). -/
def tie_corpus : List FAQ :=
  [zzz_faq, ccc_bbb_faq, zzz_faq, zzz_faq, zzz_faq,
   zzz_faq, zzz_faq, zzz_faq, zzz_faq, aaa_ccc_faq]

/-- Concrete entry used for hybrid-arbiter witnesses. -/
def faq_a : FAQ :=
  FAQ.mk "What are your business hours?" "We are open Monday to Friday, 9 AM to 6 PM EST." "general"

/-- Concrete entry used for hybrid-arbiter witnesses. -/
def faq_b : FAQ :=
  FAQ.mk "How do I reset my password?" "To reset your password, click Forgot Password." "account"

/-! ### Keyword index lemmas -/

lemma mem_index_insert_of_mem (ks : List String) (f : String → List Nat) (i j : Nat)
    (k : String) (h : j ∈ f k) : j ∈ index_insert f i ks k := by
  induction ks generalizing f with
  | nil => exact h
  | cons k' ks ih =>
    apply ih
    show j ∈ (if k = k' then f k ++ [i] else f k)
    by_cases hk : k = k'
    · rw [if_pos hk]; exact List.mem_append_left _ h
    · rw [if_neg hk]; exact h

lemma mem_index_insert_self (ks : List String) (f : String → List Nat) (i : Nat)
    (k : String) (h : k ∈ ks) : i ∈ index_insert f i ks k := by
  induction ks generalizing f with
  | nil => cases h
  | cons k' ks ih =>
    rcases List.mem_cons.mp h with rfl | hmem
    · show i ∈ index_insert (fun q => if q = k then f q ++ [i] else f q) i ks k
      apply mem_index_insert_of_mem
      show i ∈ (if k = k then f k ++ [i] else f k)
      rw [if_pos rfl]
      exact List.mem_append_right _ (by simp)
    · exact ih _ hmem

lemma mem_build_index_from_of_mem (faqs : List FAQ) (f : String → List Nat) (i0 j : Nat)
    (k : String) (h : j ∈ f k) : j ∈ build_index_from f i0 faqs k := by
  induction faqs generalizing f i0 with
  | nil => exact h
  | cons faq rest ih =>
    exact ih _ _ (mem_index_insert_of_mem _ _ _ _ _ h)

lemma mem_build_index_from (faqs : List FAQ) (f : String → List Nat) (i0 p : Nat)
    (k : String) (hp : p < faqs.length)
    (hk : k ∈ extract_keywords_list (faqs.getD p default).question) :
    (i0 + p) ∈ build_index_from f i0 faqs k := by
  induction faqs generalizing f i0 p with
  | nil => simp at hp
  | cons faq rest ih =>
    cases p with
    | zero =>
      simp only [List.getD_cons_zero] at hk
      simp only [Nat.add_zero, build_index_from]
      exact mem_build_index_from_of_mem _ _ _ _ _
        (mem_index_insert_self _ _ _ _ (List.mem_dedup.mpr hk))
    | succ p' =>
      simp only [List.getD_cons_succ] at hk
      have : i0 + (p' + 1) = (i0 + 1) + p' := by omega
      rw [this]
      exact ih _ _ _ (by simpa using hp) hk

lemma mem_build_keyword_index (faqs : List FAQ) (p : Nat) (k : String)
    (hp : p < faqs.length)
    (hk : k ∈ extract_keywords_list (faqs.getD p default).question) :
    p ∈ build_keyword_index faqs k := by
  have := mem_build_index_from faqs (fun _ => []) 0 p k hp hk
  simpa [build_keyword_index] using this

/-! ### Candidate selection lemmas -/

lemma mem_get_candidate_faqs_of_mem_index (idx : String → List Nat) (n i : Nat)
    (query : String) (k : String) (hk : k ∈ extract_keywords query)
    (hi : i ∈ idx k) : i ∈ get_candidate_faqs idx n query := by
  unfold get_candidate_faqs
  have hmem : i ∈ (extract_keywords query).biUnion (fun k => (idx k).toFinset) :=
    Finset.mem_biUnion.mpr ⟨k, hk, List.mem_toFinset.mpr hi⟩
  rw [if_neg (by exact fun h => by simp [h] at hmem)]
  exact (Finset.mem_sort _).mpr hmem

lemma get_candidate_faqs_ne_nil (idx : String → List Nat) (n : Nat) (query : String)
    (hn : 0 < n) : get_candidate_faqs idx n query ≠ [] := by
  show (if (extract_keywords query).biUnion (fun k => (idx k).toFinset) = ∅
        then List.range n
        else Finset.sort (· ≤ ·)
          ((extract_keywords query).biUnion (fun k => (idx k).toFinset))) ≠ []
  by_cases hc : (extract_keywords query).biUnion (fun k => (idx k).toFinset) = ∅
  · rw [if_pos hc]
    simp only [ne_eq, List.range_eq_nil]
    omega
  · rw [if_neg hc]
    intro hnil
    apply hc
    ext x
    simp only [Finset.not_mem_empty, iff_false]
    intro hx
    have hx' := (Finset.mem_sort (α := ℕ) (· ≤ ·)).mpr hx
    rw [hnil] at hx'
    cases hx'

lemma mem_get_candidate_faqs_iff (idx : String → List Nat) (n i : Nat) (query : String) :
    i ∈ get_candidate_faqs idx n query ↔
      ((∃ k ∈ extract_keywords query, i ∈ idx k) ∨
       ((∀ k ∈ extract_keywords query, idx k = []) ∧ i < n)) := by
  unfold get_candidate_faqs
  by_cases hc : (extract_keywords query).biUnion (fun k => (idx k).toFinset) = ∅
  · rw [if_pos hc]
    have hall : ∀ k ∈ extract_keywords query, idx k = [] := by
      intro k hk
      by_contra hne
      rcases List.exists_mem_of_ne_nil _ hne with ⟨x, hx⟩
      have : x ∈ (extract_keywords query).biUnion (fun k => (idx k).toFinset) :=
        Finset.mem_biUnion.mpr ⟨k, hk, List.mem_toFinset.mpr hx⟩
      simp [hc] at this
    constructor
    · intro h
      exact Or.inr ⟨hall, by simpa using h⟩
    · rintro (⟨k, hk, hi⟩ | ⟨_, hi⟩)
      · rw [hall k hk] at hi; cases hi
      · simpa using hi
  · rw [if_neg hc]
    rw [Finset.mem_sort]
    constructor
    · intro h
      rcases Finset.mem_biUnion.mp h with ⟨k, hk, hi⟩
      exact Or.inl ⟨k, hk, List.mem_toFinset.mp hi⟩
    · rintro (⟨k, hk, hi⟩ | ⟨hall, _⟩)
      · exact Finset.mem_biUnion.mpr ⟨k, hk, List.mem_toFinset.mpr hi⟩
      · exfalso
        apply hc
        ext x
        simp only [Finset.not_mem_empty, iff_false]
        intro hx
        rcases Finset.mem_biUnion.mp hx with ⟨k, hk, hi⟩
        rw [hall k hk] at hi
        simp at hi

/-! ### Stable descending sort lemmas -/

lemma pairwise_tie_orderedInsert (x : Scored) (l : List Scored)
    (hl : l.Pairwise tie_lt) (hx : ∀ y ∈ l, tie_lt x y) :
    (List.orderedInsert (fun x y => y.score ≤ x.score) x l).Pairwise tie_lt := by
  induction l with
  | nil => simp [tie_lt]
  | cons b t ih =>
    rcases List.pairwise_cons.mp hl with ⟨hb, ht⟩
    show (if b.score ≤ x.score then x :: b :: t
          else b :: List.orderedInsert _ x t).Pairwise tie_lt
    by_cases hr : b.score ≤ x.score
    · rw [if_pos hr]
      exact List.pairwise_cons.mpr ⟨hx, hl⟩
    · rw [if_neg hr]
      have hlt : x.score < b.score := lt_of_not_le hr
      refine List.pairwise_cons.mpr ⟨?_, ih ht (fun y hy => hx y (List.mem_cons_of_mem _ hy))⟩
      intro y hy
      rcases (List.mem_orderedInsert _).mp hy with rfl | hyt
      · intro heq
        rw [heq] at hlt
        exact absurd hlt (lt_irrefl _)
      · exact hb y hyt

lemma pairwise_tie_insertionSort (l : List Scored) (hl : l.Pairwise tie_lt) :
    (stable_sort_desc l).Pairwise tie_lt := by
  induction l with
  | nil => simp [stable_sort_desc]
  | cons x t ih =>
    rcases List.pairwise_cons.mp hl with ⟨hx, ht⟩
    show (List.orderedInsert _ x (List.insertionSort _ t)).Pairwise tie_lt
    refine pairwise_tie_orderedInsert x _ (ih ht) ?_
    intro y hy
    exact hx y ((List.perm_insertionSort _ t).mem_iff.mp hy)

lemma pairwise_lt_get_candidate_faqs (idx : String → List Nat) (n : Nat) (query : String) :
    (get_candidate_faqs idx n query).Pairwise (· < ·) := by
  show (if (extract_keywords query).biUnion (fun k => (idx k).toFinset) = ∅
        then List.range n
        else Finset.sort (· ≤ ·)
          ((extract_keywords query).biUnion (fun k => (idx k).toFinset))).Pairwise (· < ·)
  by_cases hc : (extract_keywords query).biUnion (fun k => (idx k).toFinset) = ∅
  · rw [if_pos hc]
    exact List.pairwise_lt_range n
  · rw [if_neg hc]
    exact Finset.sort_sorted_lt _

lemma pairwise_tie_scored_candidates (faqs : List FAQ) (idx : String → List Nat)
    (query : String) : (scored_candidates faqs idx query).Pairwise tie_lt := by
  unfold scored_candidates
  refine List.Pairwise.map _ ?_ (pairwise_lt_get_candidate_faqs idx faqs.length query)
  intro i j hij _
  exact hij

/-! ### Bounds for the difflib longest-match search -/

lemma stok_update (alo ahi blo bhi i j K : Nat) (hialo : alo ≤ i) (hiahi : i < ahi)
    (hjlo : blo ≤ j) (hjhi : j < bhi) (hK1 : 1 ≤ K)
    (hkj : K ≤ j + 1 - blo) (hki : K ≤ i + 1 - alo) :
    StOk alo ahi blo bhi (FLMState.mk (i + 1 - K) (j + 1 - K) K) := by
  right
  dsimp only
  refine ⟨hK1, by omega, by omega, by omega, by omega⟩

lemma flm_j_step_inv (J : Nat → Nat) (alo ahi blo bhi i j : Nat)
    (acc : (Nat → Nat) × FLMState)
    (hialo : alo ≤ i) (hiahi : i < ahi)
    (hJ : JBound blo bhi (i - alo) J)
    (hjlo : blo ≤ j) (hjhi : j < bhi)
    (h1 : JBound blo bhi (i + 1 - alo) acc.1)
    (h2 : StOk alo ahi blo bhi acc.2) :
    JBound blo bhi (i + 1 - alo) (flm_j_step J i acc j).1 ∧
      StOk alo ahi blo bhi (flm_j_step J i acc j).2 := by
  have hkj : (if j = 0 then 0 else J (j - 1)) + 1 ≤ j + 1 - blo := by
    by_cases hj0 : j = 0
    · subst hj0
      rw [if_pos rfl]
      omega
    · rw [if_neg hj0]
      by_cases hJ0 : J (j - 1) = 0
      · rw [hJ0]; omega
      · have := hJ (j - 1) hJ0
        omega
  have hki : (if j = 0 then 0 else J (j - 1)) + 1 ≤ i + 1 - alo := by
    by_cases hj0 : j = 0
    · rw [if_pos hj0]; omega
    · rw [if_neg hj0]
      by_cases hJ0 : J (j - 1) = 0
      · rw [hJ0]; omega
      · have := hJ (j - 1) hJ0
        omega
  constructor
  · intro x hx
    change (if x = j then (if j = 0 then 0 else J (j - 1)) + 1 else acc.1 x) ≠ 0 at hx
    show blo ≤ x ∧ x < bhi ∧
      (if x = j then (if j = 0 then 0 else J (j - 1)) + 1 else acc.1 x) ≤ x + 1 - blo ∧
      (if x = j then (if j = 0 then 0 else J (j - 1)) + 1 else acc.1 x) ≤ i + 1 - alo
    by_cases hxj : x = j
    · subst hxj
      rw [if_pos rfl]
      exact ⟨hjlo, hjhi, hkj, hki⟩
    · rw [if_neg hxj] at hx ⊢
      exact h1 x hx
  · show StOk alo ahi blo bhi
      (if acc.2.bestsize < (if j = 0 then 0 else J (j - 1)) + 1 then
        FLMState.mk (i + 1 - ((if j = 0 then 0 else J (j - 1)) + 1))
          (j + 1 - ((if j = 0 then 0 else J (j - 1)) + 1))
          ((if j = 0 then 0 else J (j - 1)) + 1)
       else acc.2)
    by_cases hup : acc.2.bestsize < (if j = 0 then 0 else J (j - 1)) + 1
    · rw [if_pos hup]
      exact stok_update alo ahi blo bhi i j _ hialo hiahi hjlo hjhi (by omega) hkj hki
    · rw [if_neg hup]
      exact h2

lemma flm_row_inv (J : Nat → Nat) (alo ahi blo bhi i : Nat)
    (hialo : alo ≤ i) (hiahi : i < ahi)
    (hJ : JBound blo bhi (i - alo) J) :
    ∀ (js : List Nat) (acc : (Nat → Nat) × FLMState),
      (∀ j ∈ js, blo ≤ j ∧ j < bhi) →
      JBound blo bhi (i + 1 - alo) acc.1 →
      StOk alo ahi blo bhi acc.2 →
      JBound blo bhi (i + 1 - alo) ((js.foldl (flm_j_step J i) acc).1) ∧
        StOk alo ahi blo bhi ((js.foldl (flm_j_step J i) acc).2) := by
  intro js
  induction js with
  | nil => intro acc _ h1 h2; exact ⟨h1, h2⟩
  | cons j js ih =>
    intro acc hjs h1 h2
    have hj := hjs j (List.mem_cons_self j js)
    have hstep := flm_j_step_inv J alo ahi blo bhi i j acc hialo hiahi hJ hj.1 hj.2 h1 h2
    exact ih _ (fun x hx => hjs x (List.mem_cons_of_mem _ hx)) hstep.1 hstep.2

lemma flm_fold_inv (a b : List Char) (alo ahi blo bhi : Nat) :
    ∀ (n i : Nat) (acc : (Nat → Nat) × FLMState), alo ≤ i → i + n ≤ ahi →
      JBound blo bhi (i - alo) acc.1 →
      StOk alo ahi blo bhi acc.2 →
      StOk alo ahi blo bhi (((List.range' i n).foldl (flm_step a b blo bhi) acc)).2 := by
  intro n
  induction n with
  | zero => intro i acc _ _ _ h2; exact h2
  | succ n ih =>
    intro i acc hlo hhi h1 h2
    show StOk alo ahi blo bhi
      (((List.range' (i + 1) n).foldl (flm_step a b blo bhi)
        (flm_step a b blo bhi acc i))).2
    have hjs : ∀ j ∈ b2j_positions b (a.getD i ' ') blo bhi, blo ≤ j ∧ j < bhi := by
      intro j hj
      unfold b2j_positions at hj
      rcases List.mem_filter.mp hj with ⟨_, hcond⟩
      simp only [Bool.and_eq_true, decide_eq_true_eq] at hcond
      exact ⟨hcond.1.1, hcond.1.2⟩
    have hrow := flm_row_inv acc.1 alo ahi blo bhi i hlo (by omega) h1
      (b2j_positions b (a.getD i ' ') blo bhi) ((fun _ => 0), acc.2) hjs
      (fun j hj => absurd rfl hj) h2
    have hrow1 : JBound blo bhi ((i + 1) - alo) ((flm_step a b blo bhi acc i).1) := by
      have : i + 1 - alo = (i + 1) - alo := rfl
      exact hrow.1
    exact ih (i + 1) _ (by omega) (by omega) hrow1 hrow.2

lemma find_longest_match_StOk (a b : List Char) (alo ahi blo bhi : Nat) :
    StOk alo ahi blo bhi (find_longest_match a b alo ahi blo bhi) := by
  by_cases h0 : ahi - alo = 0
  · unfold find_longest_match
    rw [h0]
    left
    rfl
  · exact flm_fold_inv a b alo ahi blo bhi (ahi - alo) alo
      ((fun _ => 0), FLMState.mk alo blo 0) (le_refl alo) (by omega)
      (fun j hj => absurd rfl hj) (Or.inl rfl)

lemma match_total_le (a b : List Char) : ∀ (fuel alo ahi blo bhi : Nat),
    match_total a b fuel alo ahi blo bhi ≤ ahi - alo ∧
      match_total a b fuel alo ahi blo bhi ≤ bhi - blo := by
  intro fuel
  induction fuel with
  | zero => intro alo ahi blo bhi; simp [match_total]
  | succ f ih =>
    intro alo ahi blo bhi
    have hst := find_longest_match_StOk a b alo ahi blo bhi
    by_cases h0 : (find_longest_match a b alo ahi blo bhi).bestsize = 0
    · simp [match_total, h0]
    · rcases hst with heq | ⟨hb1, hb2, hb3, hb4, hb5⟩
      · rw [heq] at h0; simp at h0
      · have l1 := ih alo (find_longest_match a b alo ahi blo bhi).besti blo
          (find_longest_match a b alo ahi blo bhi).bestj
        have l2 := ih
          ((find_longest_match a b alo ahi blo bhi).besti +
            (find_longest_match a b alo ahi blo bhi).bestsize) ahi
          ((find_longest_match a b alo ahi blo bhi).bestj +
            (find_longest_match a b alo ahi blo bhi).bestsize) bhi
        simp only [match_total, if_neg h0]
        omega

/-! ### Ratio bounds and the disjoint-characters case -/

lemma sequence_ratio_nonneg (a b : List Char) : 0 ≤ sequence_ratio a b := by
  show 0 ≤ (if a.length + b.length = 0 then (1 : ℚ)
    else 2 * (match_total a b (a.length + b.length) 0 a.length 0 b.length : ℚ) /
      ((a.length + b.length : Nat) : ℚ))
  by_cases h : a.length + b.length = 0
  · rw [if_pos h]; norm_num
  · rw [if_neg h]
    positivity

lemma sequence_ratio_le_one (a b : List Char) : sequence_ratio a b ≤ 1 := by
  show (if a.length + b.length = 0 then (1 : ℚ)
    else 2 * (match_total a b (a.length + b.length) 0 a.length 0 b.length : ℚ) /
      ((a.length + b.length : Nat) : ℚ)) ≤ 1
  by_cases h : a.length + b.length = 0
  · rw [if_pos h]
  · rw [if_neg h]
    have hM := match_total_le a b (a.length + b.length) 0 a.length 0 b.length
    have ht : (0 : ℚ) < ((a.length + b.length : Nat) : ℚ) := by
      exact_mod_cast Nat.pos_of_ne_zero h
    rw [div_le_one ht]
    have : 2 * match_total a b (a.length + b.length) 0 a.length 0 b.length ≤
        a.length + b.length := by omega
    exact_mod_cast this

lemma b2j_positions_eq_nil (b : List Char) (c : Char) (blo bhi : Nat) (h : c ∉ b) :
    b2j_positions b c blo bhi = [] := by
  unfold b2j_positions
  apply List.filter_eq_nil_iff.mpr
  intro j hj
  simp only [Bool.and_eq_true, decide_eq_true_eq, not_and]
  intro _ hget
  have hjlen : j < b.length := List.mem_range.mp hj
  have hmem : b.getD j ' ' ∈ b := by
    rw [List.getD_eq_getElem b ' ' hjlen]
    exact List.getElem_mem hjlen
  rw [hget] at hmem
  exact h hmem

lemma flm_fold_skip (a b : List Char) (blo bhi : Nat) (hdisj : ∀ c ∈ a, c ∉ b) :
    ∀ (is : List Nat) (acc : (Nat → Nat) × FLMState), (∀ i ∈ is, i < a.length) →
      ((is.foldl (flm_step a b blo bhi) acc)).2 = acc.2 := by
  intro is
  induction is with
  | nil => intro acc _; rfl
  | cons i is ih =>
    intro acc hlt
    have hmem : a.getD i ' ' ∈ a := by
      have hi := hlt i (List.mem_cons_self i is)
      rw [List.getD_eq_getElem a ' ' hi]
      exact List.getElem_mem hi
    have hb2j : b2j_positions b (a.getD i ' ') blo bhi = [] :=
      b2j_positions_eq_nil b _ blo bhi (hdisj _ hmem)
    show ((is.foldl (flm_step a b blo bhi) (flm_step a b blo bhi acc i))).2 = acc.2
    rw [ih _ (fun x hx => hlt x (List.mem_cons_of_mem _ hx))]
    show (flm_row acc.1 i (b2j_positions b (a.getD i ' ') blo bhi) acc.2).2 = acc.2
    rw [hb2j]
    rfl

lemma find_longest_match_disjoint (a b : List Char) (hdisj : ∀ c ∈ a, c ∉ b) :
    find_longest_match a b 0 a.length 0 b.length = FLMState.mk 0 0 0 := by
  unfold find_longest_match
  rw [flm_fold_skip a b 0 b.length hdisj _ _ ?_]
  intro i hi
  have := List.mem_range'_1.mp hi
  omega

lemma sequence_ratio_disjoint (a b : List Char) (hdisj : ∀ c ∈ a, c ∉ b)
    (hne : a ≠ [] ∨ b ≠ []) : sequence_ratio a b = 0 := by
  have ht : a.length + b.length ≠ 0 := by
    rcases hne with h | h
    · have : a.length ≠ 0 := fun hlen => h (List.length_eq_zero.mp hlen)
      omega
    · have : b.length ≠ 0 := fun hlen => h (List.length_eq_zero.mp hlen)
      omega
  show (if a.length + b.length = 0 then (1 : ℚ)
    else 2 * (match_total a b (a.length + b.length) 0 a.length 0 b.length : ℚ) /
      ((a.length + b.length : Nat) : ℚ)) = 0
  rw [if_neg ht]
  obtain ⟨f, hf⟩ : ∃ f, a.length + b.length = f + 1 := ⟨a.length + b.length - 1, by omega⟩
  rw [hf]
  have hmz : match_total a b (f + 1) 0 a.length 0 b.length = 0 := by
    simp only [match_total, find_longest_match_disjoint a b hdisj]
    rfl
  rw [hmz]
  norm_num

/-! ### Score bounds -/

lemma keyword_match_score_nonneg (q f : String) : 0 ≤ keyword_match_score q f := by
  show 0 ≤ (if extract_keywords q = ∅ then (0 : ℚ)
    else if extract_keywords q ∪ extract_keywords f = ∅ then (0 : ℚ)
    else ((extract_keywords q ∩ extract_keywords f).card : ℚ) /
      ((extract_keywords q ∪ extract_keywords f).card : ℚ))
  split_ifs
  · exact le_refl 0
  · exact le_refl 0
  · positivity

lemma keyword_match_score_le_one (q f : String) : keyword_match_score q f ≤ 1 := by
  show (if extract_keywords q = ∅ then (0 : ℚ)
    else if extract_keywords q ∪ extract_keywords f = ∅ then (0 : ℚ)
    else ((extract_keywords q ∩ extract_keywords f).card : ℚ) /
      ((extract_keywords q ∪ extract_keywords f).card : ℚ)) ≤ 1
  split_ifs with h1 h2
  · norm_num
  · norm_num
  · have hpos : 0 < (extract_keywords q ∪ extract_keywords f).card :=
      Finset.card_pos.mpr (Finset.nonempty_iff_ne_empty.mpr h2)
    rw [div_le_one (by exact_mod_cast hpos)]
    have hle : (extract_keywords q ∩ extract_keywords f).card ≤
        (extract_keywords q ∪ extract_keywords f).card :=
      Finset.card_le_card (Finset.inter_subset_union)
    exact_mod_cast hle

lemma combined_score_nonneg (q f : String) : 0 ≤ combined_score q f := by
  unfold combined_score calculate_similarity
  have h1 := keyword_match_score_nonneg q f
  have h2 := sequence_ratio_nonneg (preprocess_text q).toList (preprocess_text f).toList
  nlinarith

lemma combined_score_le_one (q f : String) : combined_score q f ≤ 1 := by
  unfold combined_score calculate_similarity
  have h1 := keyword_match_score_le_one q f
  have h2 := sequence_ratio_le_one (preprocess_text q).toList (preprocess_text f).toList
  have h3 := keyword_match_score_nonneg q f
  have h4 := sequence_ratio_nonneg (preprocess_text q).toList (preprocess_text f).toList
  nlinarith

/-! ### Remaining helper lemmas -/

lemma keyword_match_score_of_no_keywords (q f : String)
    (hq : extract_keywords q = ∅) : keyword_match_score q f = 0 := by
  show (if extract_keywords q = ∅ then (0 : ℚ)
    else if extract_keywords q ∪ extract_keywords f = ∅ then (0 : ℚ)
    else ((extract_keywords q ∩ extract_keywords f).card : ℚ) /
      ((extract_keywords q ∪ extract_keywords f).card : ℚ)) = 0
  rw [if_pos hq]

lemma keyword_match_score_eq_jaccard (q f : String) :
    keyword_match_score q f =
      (if extract_keywords q = ∅ ∨ extract_keywords q ∪ extract_keywords f = ∅ then 0
       else ((extract_keywords q ∩ extract_keywords f).card : ℚ) /
         ((extract_keywords q ∪ extract_keywords f).card : ℚ)) := by
  show (if extract_keywords q = ∅ then (0 : ℚ)
    else if extract_keywords q ∪ extract_keywords f = ∅ then (0 : ℚ)
    else ((extract_keywords q ∩ extract_keywords f).card : ℚ) /
      ((extract_keywords q ∪ extract_keywords f).card : ℚ)) = _
  by_cases h1 : extract_keywords q = ∅
  · rw [if_pos h1, if_pos (Or.inl h1)]
  · rw [if_neg h1]
    by_cases h2 : extract_keywords q ∪ extract_keywords f = ∅
    · rw [if_pos h2, if_pos (Or.inr h2)]
    · rw [if_neg h2, if_neg (by push_neg; exact ⟨h1, h2⟩)]

lemma string_toList_ne_nil {s : String} (h : s ≠ "") : s.toList ≠ [] := by
  intro hl
  apply h
  cases s with
  | mk data =>
    simp only [String.toList] at hl
    simp [hl]

lemma combined_score_zero (q f : String) (hq : extract_keywords q = ∅)
    (hdisj : ∀ c ∈ (preprocess_text q).toList, c ∉ (preprocess_text f).toList)
    (hne : preprocess_text q ≠ "" ∨ preprocess_text f ≠ "") :
    combined_score q f = 0 := by
  unfold combined_score calculate_similarity
  rw [keyword_match_score_of_no_keywords q f hq]
  rw [sequence_ratio_disjoint _ _ hdisj ?hne]
  · norm_num
  case hne =>
    rcases hne with h | h
    · exact Or.inl (string_toList_ne_nil h)
    · exact Or.inr (string_toList_ne_nil h)

lemma find_best_match_ne_nil (faqs : List FAQ) (idx : String → List Nat) (query : String)
    (hf : faqs ≠ []) :
    RuleBasedChatbot.find_best_match faqs idx query 3 ≠ [] := by
  unfold RuleBasedChatbot.find_best_match
  have hcand : get_candidate_faqs idx faqs.length query ≠ [] :=
    get_candidate_faqs_ne_nil idx faqs.length query (List.length_pos.mpr hf)
  have hsc : scored_candidates faqs idx query ≠ [] := by
    unfold scored_candidates
    intro hmap
    exact hcand (List.map_eq_nil_iff.mp hmap)
  have hsort : stable_sort_desc (scored_candidates faqs idx query) ≠ [] := by
    intro hnil
    apply hsc
    have hperm := List.perm_insertionSort
      (fun x y => y.score ≤ x.score) (scored_candidates faqs idx query)
    rw [stable_sort_desc] at hnil
    rw [hnil] at hperm
    exact hperm.symm.eq_nil
  cases hcase : stable_sort_desc (scored_candidates faqs idx query) with
  | nil => exact absurd hcase hsort
  | cons x xs => simp

/-! ### Claim theorems -/

/-- C7: for every query, `_get_candidate_faqs` over the index built from
the corpus returns exactly the union of the FAQ ids registered under the
query's keywords; when that union is empty it returns every id of the
corpus (full fallback scan); and on a non-empty corpus the candidate
list is never empty. -/
theorem claim_C7_candidate_fallback (faqs : List FAQ) (query : String) :
    (∀ i, i ∈ get_candidate_faqs (build_keyword_index faqs) faqs.length query ↔
      ((∃ k ∈ extract_keywords query, i ∈ build_keyword_index faqs k) ∨
       ((∀ k ∈ extract_keywords query, build_keyword_index faqs k = []) ∧
         i < faqs.length))) ∧
    (faqs ≠ [] → get_candidate_faqs (build_keyword_index faqs) faqs.length query ≠ []) := by
  constructor
  · intro i
    exact mem_get_candidate_faqs_iff (build_keyword_index faqs) faqs.length i query
  · intro h
    exact get_candidate_faqs_ne_nil _ _ _ (List.length_pos.mpr h)

/-- Witness for C7 at the concrete corpus `[reset_faq]` and the query
`"qqq"`, which shares no keyword with the corpus: the fallback still
returns a non-empty candidate list. -/
theorem claim_C7_witness :
    ([reset_faq] : List FAQ) ≠ [] ∧
    get_candidate_faqs (build_keyword_index [reset_faq]) [reset_faq].length "qqq" ≠ [] :=
  ⟨by decide, (claim_C7_candidate_fallback [reset_faq] "qqq").2 (by decide)⟩

/-- C8: every keyword extracted from a corpus entry's question is mapped
by `_build_keyword_index` to that entry's index, and hence any query
containing that keyword yields the entry among `_get_candidate_faqs`. -/
theorem claim_C8_index_invariant (faqs : List FAQ) (p : Nat) (k : String) (query : String)
    (hp : p < faqs.length)
    (hk : k ∈ extract_keywords (faqs.getD p default).question) :
    p ∈ build_keyword_index faqs k ∧
      (k ∈ extract_keywords query →
        p ∈ get_candidate_faqs (build_keyword_index faqs) faqs.length query) := by
  have h1 := mem_build_keyword_index faqs p k hp (List.mem_toFinset.mp hk)
  exact ⟨h1, fun hq => mem_get_candidate_faqs_of_mem_index _ _ _ _ k hq h1⟩

/-- Witness for C8: in the corpus `[reset_faq]` the keyword `"reset"` of
entry 0 is indexed to 0, and the query `"reset"` yields candidate 0. -/
theorem claim_C8_witness :
    0 < ([reset_faq] : List FAQ).length ∧
    0 ∈ build_keyword_index [reset_faq] "reset" ∧
    0 ∈ get_candidate_faqs (build_keyword_index [reset_faq]) [reset_faq].length "reset" := by
  have h := claim_C8_index_invariant [reset_faq] 0 "reset" "reset" (by decide) (by decide)
  exact ⟨by decide, h.1, h.2 (by decide)⟩

/-- C9 (amended): the lexical combined score equals 0.6 times the
keyword-set Jaccard similarity (0 when the query has no keywords or the
union is empty) plus 0.4 times the character-sequence ratio of the
normalized texts; it lies in [0,1]; and it is 0 whenever the query has
no extractable keywords, the normalized texts share no character, *and
they are not both empty* — in the both-empty case difflib defines the
ratio as 1 and the score is 0.4. -/
theorem claim_C9_lexical_score (query question : String) :
    combined_score query question =
      0.6 * (if extract_keywords query = ∅ ∨
               extract_keywords query ∪ extract_keywords question = ∅ then 0
             else ((extract_keywords query ∩ extract_keywords question).card : ℚ) /
               ((extract_keywords query ∪ extract_keywords question).card : ℚ)) +
      0.4 * sequence_ratio (preprocess_text query).toList (preprocess_text question).toList ∧
    0 ≤ combined_score query question ∧ combined_score query question ≤ 1 ∧
    (extract_keywords query = ∅ →
      (∀ c ∈ (preprocess_text query).toList, c ∉ (preprocess_text question).toList) →
      (preprocess_text query ≠ "" ∨ preprocess_text question ≠ "") →
      combined_score query question = 0) := by
  refine ⟨?_, combined_score_nonneg query question, combined_score_le_one query question,
    combined_score_zero query question⟩
  unfold combined_score calculate_similarity
  rw [keyword_match_score_eq_jaccard]

/-- Witness for C9 at the query `"!!!"` (no keywords, normalizes to the
empty string) against the question `"zzz"`: the texts share no character
and are not both empty, so the score is 0. -/
theorem claim_C9_witness :
    extract_keywords "!!!" = ∅ ∧ combined_score "!!!" "zzz" = 0 :=
  ⟨by decide,
   (claim_C9_lexical_score "!!!" "zzz").2.2.2 (by decide) (by decide) (by decide)⟩

/-- Counterexample to C9 as stated: both `"!!!"` and the entry question
`"!!!"` normalize to the empty string, so the query has no keywords and
the normalized texts are (vacuously) disjoint, yet the combined score is
0.4, not 0, because difflib's ratio of two empty sequences is 1. -/
theorem claim_C9_counterexample :
    preprocess_text "!!!" = "" ∧ extract_keywords "!!!" = ∅ ∧
    combined_score "!!!" "!!!" = 0.4 := by
  refine ⟨by decide, by decide, ?_⟩
  have h1 : keyword_match_score "!!!" "!!!" = 0 :=
    keyword_match_score_of_no_keywords _ _ (by decide)
  have h2 : calculate_similarity "!!!" "!!!" = 1 := by
    unfold calculate_similarity
    have hp : preprocess_text "!!!" = "" := by decide
    rw [hp]
    rfl
  unfold combined_score
  rw [h1, h2]
  norm_num

/-! ### Hybrid arbiter branch lemmas -/

lemma hybrid_rule_branch (query : String) (rm : FAQ × ℚ) (rmt nlp_matches : List (FAQ × ℚ))
    (rule_weight nlp_weight : ℚ) (hist : List HybridRecord)
    (h : (nlp_matches.headD (default, 0)).2 * nlp_weight < rm.2 * rule_weight) :
    HybridChatbot.get_response query (rm :: rmt) nlp_matches rule_weight nlp_weight hist =
      (rm.1.answer, hist ++ [HybridRecord.mk query rm.1.answer rm.2 "rule-based"]) := by
  unfold HybridChatbot.get_response
  simp only [List.headD_cons]
  rw [if_pos ⟨h, List.cons_ne_nil rm rmt⟩]

lemma hybrid_nlp_branch (query : String) (rule_matches : List (FAQ × ℚ)) (nm : FAQ × ℚ)
    (nmt : List (FAQ × ℚ)) (rule_weight nlp_weight : ℚ) (hist : List HybridRecord)
    (h : ¬(nm.2 * nlp_weight < (rule_matches.headD (default, 0)).2 * rule_weight ∧
           rule_matches ≠ [])) :
    HybridChatbot.get_response query rule_matches (nm :: nmt) rule_weight nlp_weight hist =
      (nm.1.answer, hist ++ [HybridRecord.mk query nm.1.answer nm.2 "semantic"]) := by
  unfold HybridChatbot.get_response
  simp only [List.headD_cons]
  rw [if_neg h, if_pos (List.cons_ne_nil nm nmt)]

lemma hybrid_none_branch (query : String) (rule_matches : List (FAQ × ℚ))
    (rule_weight nlp_weight : ℚ) (hist : List HybridRecord)
    (h : ¬(0 * nlp_weight < (rule_matches.headD (default, 0)).2 * rule_weight ∧
           rule_matches ≠ [])) :
    HybridChatbot.get_response query rule_matches [] rule_weight nlp_weight hist =
      (hybrid_no_answer_msg, hist) := by
  unfold HybridChatbot.get_response
  simp only [List.headD_nil]
  rw [if_neg (by simpa using h), if_neg (by simp)]

/-- C2: when both matchers produce a candidate, the arbiter picks the
method with the strictly higher weighted score and both the returned
answer and the logged record carry that method's *raw* unweighted
score. -/
theorem claim_C2_weighted_selection (query : String) (rm nm : FAQ × ℚ)
    (rmt nmt : List (FAQ × ℚ)) (rule_weight nlp_weight : ℚ) (hist : List HybridRecord) :
    (nm.2 * nlp_weight < rm.2 * rule_weight →
      HybridChatbot.get_response query (rm :: rmt) (nm :: nmt) rule_weight nlp_weight hist =
        (rm.1.answer, hist ++ [HybridRecord.mk query rm.1.answer rm.2 "rule-based"])) ∧
    (rm.2 * rule_weight < nm.2 * nlp_weight →
      HybridChatbot.get_response query (rm :: rmt) (nm :: nmt) rule_weight nlp_weight hist =
        (nm.1.answer, hist ++ [HybridRecord.mk query nm.1.answer nm.2 "semantic"])) := by
  constructor
  · intro h
    exact hybrid_rule_branch query rm rmt (nm :: nmt) rule_weight nlp_weight hist
      (by simpa using h)
  · intro h
    apply hybrid_nlp_branch
    simp only [List.headD_cons, ne_eq, List.cons_ne_nil, not_false_eq_true, and_true]
    exact not_lt_of_gt h

/-- Witness for C2 at the spec's example: lexical raw 0.9, semantic raw
0.95, weights 0.3/0.7 give weighted 0.27 vs 0.665, so the semantic
method is selected and the reported score is the raw 0.95. -/
theorem claim_C2_witness :
    (9/10 : ℚ) * (3/10) < (95/100 : ℚ) * (7/10) ∧
    HybridChatbot.get_response "q" [(faq_a, 9/10)] [(faq_b, 95/100)] (3/10) (7/10) [] =
      (faq_b.answer, [HybridRecord.mk "q" faq_b.answer (95/100) "semantic"]) := by
  have h := claim_C2_weighted_selection "q" (faq_a, 9/10) (faq_b, 95/100) [] [] (3/10) (7/10) []
  exact ⟨by norm_num, h.2 (by norm_num)⟩

/-- C1 (amended): the hybrid arbiter applies no confidence threshold.
Whenever both matchers produced a candidate the response is the chosen
method's raw top answer, however low the winning raw score is; a
fallback carrying alternative questions is never produced in hybrid
mode. -/
theorem claim_C1_no_threshold (query : String) (rm nm : FAQ × ℚ)
    (rmt nmt : List (FAQ × ℚ)) (rule_weight nlp_weight : ℚ) (hist : List HybridRecord) :
    (HybridChatbot.get_response query (rm :: rmt) (nm :: nmt) rule_weight nlp_weight hist).1 =
      (if nm.2 * nlp_weight < rm.2 * rule_weight then rm.1.answer else nm.1.answer) := by
  by_cases h : nm.2 * nlp_weight < rm.2 * rule_weight
  · rw [if_pos h,
      hybrid_rule_branch query rm rmt (nm :: nmt) rule_weight nlp_weight hist (by simpa using h)]
  · rw [if_neg h,
      hybrid_nlp_branch query (rm :: rmt) nm nmt rule_weight nlp_weight hist
        (by simp only [List.headD_cons]; exact fun hc => h hc.1)]

/-- C6 (amended): when the weighted scores tie exactly, the arbiter
deterministically selects the *semantic* method (the strict comparison
fails and control falls to the `elif` branch). -/
theorem claim_C6_tie_semantic (query : String) (rm nm : FAQ × ℚ)
    (rmt nmt : List (FAQ × ℚ)) (rule_weight nlp_weight : ℚ) (hist : List HybridRecord)
    (h : rm.2 * rule_weight = nm.2 * nlp_weight) :
    HybridChatbot.get_response query (rm :: rmt) (nm :: nmt) rule_weight nlp_weight hist =
      (nm.1.answer, hist ++ [HybridRecord.mk query nm.1.answer nm.2 "semantic"]) := by
  apply hybrid_nlp_branch
  simp only [List.headD_cons]
  intro hc
  exact absurd (h ▸ hc.1) (lt_irrefl _)

/-- Witness for C6 at a concrete tie: raw 0.7 at weight 0.3 against raw
0.3 at weight 0.7 (both weighted 0.21) resolves to semantic. -/
theorem claim_C6_witness :
    (7/10 : ℚ) * (3/10) = (3/10 : ℚ) * (7/10) ∧
    HybridChatbot.get_response "q" [(faq_a, 7/10)] [(faq_b, 3/10)] (3/10) (7/10) [] =
      (faq_b.answer, [HybridRecord.mk "q" faq_b.answer (3/10) "semantic"]) :=
  ⟨by norm_num,
   claim_C6_tie_semantic "q" (faq_a, 7/10) (faq_b, 3/10) [] [] (3/10) (7/10) [] (by norm_num)⟩

/-- Counterexample to C6 as stated: at the weighted tie 0.21 = 0.21 the
arbiter's record carries method `"semantic"`, and the answer returned is
the semantic entry's, not the lexical one's — the lexical method does
not win ties. -/
theorem claim_C6_counterexample :
    (7/10 : ℚ) * (3/10) = (3/10 : ℚ) * (7/10) ∧
    HybridChatbot.get_response "q" [(faq_a, 7/10)] [(faq_b, 3/10)] (3/10) (7/10) [] =
      (faq_b.answer, [HybridRecord.mk "q" faq_b.answer (3/10) "semantic"]) ∧
    faq_b.answer ≠ faq_a.answer := by
  refine ⟨by norm_num, ?_, by decide⟩
  apply hybrid_nlp_branch
  simp only [List.headD_cons]
  intro hc
  have := hc.1
  norm_num at this

/-- C3 (amended): a semantic-only candidate wins unconditionally
(whatever its score); a lexical-only candidate wins only when its
weighted score is strictly positive — with score 0 the arbiter falls
through to the no-answer message instead. -/
theorem claim_C3_single_matcher (query : String) (rule_weight nlp_weight : ℚ)
    (hist : List HybridRecord) :
    (∀ (nm : FAQ × ℚ) (nmt : List (FAQ × ℚ)),
      HybridChatbot.get_response query [] (nm :: nmt) rule_weight nlp_weight hist =
        (nm.1.answer, hist ++ [HybridRecord.mk query nm.1.answer nm.2 "semantic"])) ∧
    (∀ (rm : FAQ × ℚ) (rmt : List (FAQ × ℚ)), 0 < rm.2 * rule_weight →
      HybridChatbot.get_response query (rm :: rmt) [] rule_weight nlp_weight hist =
        (rm.1.answer, hist ++ [HybridRecord.mk query rm.1.answer rm.2 "rule-based"])) := by
  constructor
  · intro nm nmt
    apply hybrid_nlp_branch
    simp
  · intro rm rmt h
    apply hybrid_rule_branch
    simpa using h

/-- Witness for C3 (amended): a semantic-only candidate with a negative
raw score still wins; a lexical-only candidate with positive weighted
score wins. -/
theorem claim_C3_witness :
    HybridChatbot.get_response "q" [] [(faq_b, -(1/10))] (3/10) (7/10) [] =
      (faq_b.answer, [HybridRecord.mk "q" faq_b.answer (-(1/10)) "semantic"]) ∧
    (0 : ℚ) < (1/2) * (3/10) ∧
    HybridChatbot.get_response "q" [(faq_a, 1/2)] [] (3/10) (7/10) [] =
      (faq_a.answer, [HybridRecord.mk "q" faq_a.answer (1/2) "rule-based"]) := by
  have h := claim_C3_single_matcher "q" (3/10) (7/10) []
  exact ⟨h.1 (faq_b, -(1/10)) [], by norm_num, h.2 (faq_a, 1/2) [] (by norm_num)⟩

/-! ### Rule-based get_response evaluation -/

lemma get_response_cons (bot : RuleBasedChatbot) (query : String)
    (hq : ¬ py_strip query = "")
    (best : Scored) (rest : List Scored)
    (hm : RuleBasedChatbot.find_best_match bot.faqs bot.keyword_index query 3 = best :: rest) :
    RuleBasedChatbot.get_response bot query =
      (if best.score < bot.threshold then
         rule_fallback (((best :: rest).take 2).map (fun m => m.faq.question))
       else best.faq.answer,
       { bot with conversation_history :=
           bot.conversation_history ++ [HistRecord.mk query best.faq.answer best.score] }) := by
  unfold RuleBasedChatbot.get_response
  rw [if_neg hq, hm]
  dsimp only
  by_cases hth : best.score < bot.threshold
  · rw [if_pos hth, if_pos hth]
  · rw [if_neg hth, if_neg hth]

/-- C10: for every non-blank query on a non-empty corpus, `get_response`
leaves the corpus, threshold and keyword index untouched and appends
exactly one history record whose response field is the top-ranked
candidate's answer and whose score is the top score — the append happens
before the threshold check, so it is unconditional. -/
theorem claim_C10_logging (bot : RuleBasedChatbot) (query : String)
    (hq : py_strip query ≠ "") (hf : bot.faqs ≠ []) :
    (RuleBasedChatbot.get_response bot query).2.faqs = bot.faqs ∧
    (RuleBasedChatbot.get_response bot query).2.threshold = bot.threshold ∧
    (RuleBasedChatbot.get_response bot query).2.keyword_index = bot.keyword_index ∧
    ∃ best rest,
      RuleBasedChatbot.find_best_match bot.faqs bot.keyword_index query 3 = best :: rest ∧
      (RuleBasedChatbot.get_response bot query).2.conversation_history =
        bot.conversation_history ++ [HistRecord.mk query best.faq.answer best.score] := by
  obtain ⟨best, rest, hm⟩ : ∃ best rest,
      RuleBasedChatbot.find_best_match bot.faqs bot.keyword_index query 3 = best :: rest := by
    cases hcase : RuleBasedChatbot.find_best_match bot.faqs bot.keyword_index query 3 with
    | nil => exact absurd hcase (find_best_match_ne_nil bot.faqs bot.keyword_index query hf)
    | cons b r => exact ⟨b, r, rfl⟩
  rw [get_response_cons bot query hq best rest hm]
  exact ⟨rfl, rfl, rfl, best, rest, hm, rfl⟩

/-- Witness for C10 on the corpus `[zzz_faq]` with the matching query
`"zzz"`. -/
theorem claim_C10_witness :
    py_strip "zzz" ≠ "" ∧ (RuleBasedChatbot.init [zzz_faq] (2/5)).faqs ≠ [] ∧
    (RuleBasedChatbot.get_response (RuleBasedChatbot.init [zzz_faq] (2/5)) "zzz").2.faqs =
      (RuleBasedChatbot.init [zzz_faq] (2/5)).faqs ∧
    ∃ best rest,
      RuleBasedChatbot.find_best_match (RuleBasedChatbot.init [zzz_faq] (2/5)).faqs
        (RuleBasedChatbot.init [zzz_faq] (2/5)).keyword_index "zzz" 3 = best :: rest ∧
      (RuleBasedChatbot.get_response
          (RuleBasedChatbot.init [zzz_faq] (2/5)) "zzz").2.conversation_history =
        (RuleBasedChatbot.init [zzz_faq] (2/5)).conversation_history ++
          [HistRecord.mk "zzz" best.faq.answer best.score] := by
  have h := claim_C10_logging (RuleBasedChatbot.init [zzz_faq] (2/5)) "zzz"
    (by decide) (by decide)
  exact ⟨by decide, by decide, h.1, h.2.2.2⟩

/-- C4 (amended): the empty-query guard fires on queries that are blank
*before* normalization (`query.strip()`), returning the clarification
prompt and leaving the whole chatbot state — history included —
unchanged. Queries that are blank only after normalization are not
caught (see the counterexample). -/
theorem claim_C4_empty_query (bot : RuleBasedChatbot) (query : String)
    (h : py_strip query = "") :
    RuleBasedChatbot.get_response bot query = (rule_empty_query_msg, bot) := by
  unfold RuleBasedChatbot.get_response
  rw [if_pos h]

/-- Witness for C4 on a whitespace-only query. -/
theorem claim_C4_witness :
    py_strip "   " = "" ∧
    RuleBasedChatbot.get_response (RuleBasedChatbot.init [reset_faq] (2/5)) "   " =
      (rule_empty_query_msg, RuleBasedChatbot.init [reset_faq] (2/5)) :=
  ⟨by decide, claim_C4_empty_query _ _ (by decide)⟩

/-- Counterexample to C4 as stated: `"!!!"` is blank after normalization
(`_preprocess_text` maps it to `""`), but `"!!!".strip()` is non-empty,
so the guard does not fire: a history record (with score 0) *is*
appended and the reply is the low-confidence fallback, not the
clarification prompt. -/
theorem claim_C4_counterexample :
    preprocess_text "!!!" = "" ∧
    (RuleBasedChatbot.get_response
        (RuleBasedChatbot.init [zzz_faq] (2/5)) "!!!").2.conversation_history =
      [HistRecord.mk "!!!" zzz_faq.answer 0] ∧
    (RuleBasedChatbot.get_response (RuleBasedChatbot.init [zzz_faq] (2/5)) "!!!").1 ≠
      rule_empty_query_msg := by
  have hcs : combined_score "!!!" zzz_faq.question = 0 :=
    combined_score_zero _ _ (by decide) (by decide) (Or.inr (by decide))
  have hm : RuleBasedChatbot.find_best_match (RuleBasedChatbot.init [zzz_faq] (2/5)).faqs
      (RuleBasedChatbot.init [zzz_faq] (2/5)).keyword_index "!!!" 3 =
      [Scored.mk 0 zzz_faq (combined_score "!!!" zzz_faq.question)] := rfl
  have hresp := get_response_cons (RuleBasedChatbot.init [zzz_faq] (2/5)) "!!!"
    (by decide) (Scored.mk 0 zzz_faq (combined_score "!!!" zzz_faq.question)) [] hm
  rw [hresp]
  have hth : (Scored.mk 0 zzz_faq (combined_score "!!!" zzz_faq.question)).score <
      (RuleBasedChatbot.init [zzz_faq] (2/5)).threshold := by
    show combined_score "!!!" zzz_faq.question < (2/5 : ℚ)
    rw [hcs]
    norm_num
  rw [if_pos hth]
  refine ⟨by decide, ?_, by decide⟩
  show [HistRecord.mk "!!!" zzz_faq.answer (combined_score "!!!" zzz_faq.question)] =
    [HistRecord.mk "!!!" zzz_faq.answer 0]
  rw [hcs]

/-! ### Hybrid pipeline counterexamples -/

lemma combined_score_qqq_zzz : combined_score "qqq" zzz_faq.question = 0 := by
  have h1 : keyword_match_score "qqq" zzz_faq.question = 0 := by
    rw [keyword_match_score_eq_jaccard]
    have hcard : (extract_keywords "qqq" ∩ extract_keywords zzz_faq.question).card = 0 := by
      decide
    by_cases hbr : extract_keywords "qqq" = ∅ ∨
        extract_keywords "qqq" ∪ extract_keywords zzz_faq.question = ∅
    · rw [if_pos hbr]
    · rw [if_neg hbr, hcard, Nat.cast_zero]
      exact zero_div _
  have h2 : calculate_similarity "qqq" zzz_faq.question = 0 := by
    unfold calculate_similarity
    apply sequence_ratio_disjoint
    · decide
    · exact Or.inl (by decide)
  unfold combined_score
  rw [h1, h2]
  norm_num

lemma fbm_qqq_zzz : (RuleBasedChatbot.find_best_match
    (RuleBasedChatbot.init [zzz_faq] (2/5)).faqs
    (RuleBasedChatbot.init [zzz_faq] (2/5)).keyword_index "qqq" 1).map
      (fun s => (s.faq, s.score)) =
    [(zzz_faq, combined_score "qqq" zzz_faq.question)] := rfl

/-- Counterexample to C1 as stated: corpus `[zzz_faq]` (lexical raw
score 0 for the query), semantic candidate `faq_b` with raw score 0.01 —
below both configured thresholds (0.4 rule-based, 0.5 semantic). The
hybrid response is the plain top answer with the raw 0.01 logged; no
threshold fallback with alternative questions is produced. -/
theorem claim_C1_counterexample :
    HybridChatbot.resolve (RuleBasedChatbot.init [zzz_faq] (2/5)) "qqq"
        [(faq_b, 1/100)] (3/10) (7/10) [] =
      (faq_b.answer, [HybridRecord.mk "qqq" faq_b.answer (1/100) "semantic"]) ∧
    (1/100 : ℚ) < 2/5 ∧ (1/100 : ℚ) < 1/2 ∧
    faq_b.answer ≠ hybrid_no_answer_msg := by
  refine ⟨?_, by norm_num, by norm_num, by decide⟩
  unfold HybridChatbot.resolve
  rw [fbm_qqq_zzz]
  apply hybrid_nlp_branch
  simp only [List.headD_cons]
  intro hc
  have h1 := hc.1
  rw [combined_score_qqq_zzz] at h1
  norm_num at h1

/-- Counterexample to C3 as stated: only the lexical matcher produces a
candidate (`zzz_faq`, raw score 0; the semantic side returns nothing),
yet the arbiter does not select it: because the weighted lexical score
is not strictly positive the response is the no-answer message and no
record is logged. -/
theorem claim_C3_counterexample :
    (RuleBasedChatbot.find_best_match (RuleBasedChatbot.init [zzz_faq] (2/5)).faqs
        (RuleBasedChatbot.init [zzz_faq] (2/5)).keyword_index "qqq" 1).map
      (fun s => (s.faq, s.score)) = [(zzz_faq, 0)] ∧
    HybridChatbot.resolve (RuleBasedChatbot.init [zzz_faq] (2/5)) "qqq" [] (3/10) (7/10) [] =
      (hybrid_no_answer_msg, []) ∧
    hybrid_no_answer_msg ≠ zzz_faq.answer := by
  refine ⟨?_, ?_, by decide⟩
  · rw [fbm_qqq_zzz, combined_score_qqq_zzz]
  · unfold HybridChatbot.resolve
    rw [fbm_qqq_zzz]
    apply hybrid_none_branch
    simp only [List.headD_cons]
    intro hc
    have h1 := hc.1
    rw [combined_score_qqq_zzz] at h1
    norm_num at h1

lemma get_candidate_faqs_admissible (idx : String → List Nat) (n : Nat)
    (query : String) :
    is_candidate_list idx n query (get_candidate_faqs idx n query) := by
  show is_candidate_list idx n query
    (if (extract_keywords query).biUnion (fun k => (idx k).toFinset) = ∅
     then List.range n
     else Finset.sort (· ≤ ·) ((extract_keywords query).biUnion (fun k => (idx k).toFinset)))
  by_cases hc : (extract_keywords query).biUnion (fun k => (idx k).toFinset) = ∅
  · rw [if_pos hc]
    exact Or.inl ⟨hc, rfl⟩
  · rw [if_neg hc]
    exact Or.inr ⟨hc, Finset.sort_nodup _ _, Finset.sort_toFinset _ _⟩

lemma stable_sort_desc_pair (x y : Scored) (h : y.score ≤ x.score) :
    stable_sort_desc [x, y] = [x, y] := by
  show List.orderedInsert (fun a b => b.score ≤ a.score) x
    (List.orderedInsert (fun a b => b.score ≤ a.score) y
      (List.insertionSort (fun a b => b.score ≤ a.score) [])) = [x, y]
  show (if y.score ≤ x.score then x :: [y]
        else y :: List.orderedInsert (fun a b => b.score ≤ a.score) x []) = [x, y]
  rw [if_pos h]

/-- C5 (amended): for any admissible enumeration of the candidate set —
CPython specifies no set iteration order — `find_best_match` returns the
first `top_k` elements of a descending stable sort of the scored
candidates: sorted descending by score, a prefix of a permutation of the
scored candidates, at most `top_k` long. Ties are kept in the candidate
*enumeration* order, which coincides with corpus order on the lexical
fallback path (empty keyword union, where the code returns
`list(range(n))`) and for the semantic ranker (which scans the corpus in
order) — but not, in general, on the lexical index-hit path. -/
theorem claim_C5_ranking (faqs : List FAQ) (idx : String → List Nat) (query : String)
    (top_k : Nat) (cands : List Nat)
    (hc : is_candidate_list idx faqs.length query cands) :
    (∃ full : List Scored,
      (scored_candidates_with faqs cands query).Perm full ∧
      full.Pairwise (fun x y => y.score ≤ x.score) ∧
      find_best_match_with faqs cands query top_k = full.take top_k) ∧
    (find_best_match_with faqs cands query top_k).length ≤ top_k ∧
    (candidate_set idx query = ∅ →
      ∃ full : List Scored,
        (scored_candidates_with faqs cands query).Perm full ∧
        full.Pairwise (fun x y => y.score ≤ x.score) ∧
        full.Pairwise (fun x y => x.score = y.score → x.idx < y.idx) ∧
        find_best_match_with faqs cands query top_k = full.take top_k) ∧
    ∀ sim : Nat → ℚ,
      (∃ full : List Scored,
        ((List.range faqs.length).map
          (fun i => Scored.mk i (faqs.getD i default) (sim i))).Perm full ∧
        full.Pairwise (fun x y => y.score ≤ x.score) ∧
        full.Pairwise (fun x y => x.score = y.score → x.idx < y.idx) ∧
        NLPChatbot.find_best_match faqs sim top_k = full.take top_k) ∧
      (NLPChatbot.find_best_match faqs sim top_k).length ≤ top_k := by
  refine ⟨⟨stable_sort_desc (scored_candidates_with faqs cands query), ?_, ?_, rfl⟩,
    List.length_take_le _ _, ?_, ?_⟩
  · exact (List.perm_insertionSort _ _).symm
  · exact List.sorted_insertionSort _ _
  · intro hemp
    refine ⟨stable_sort_desc (scored_candidates_with faqs cands query),
      (List.perm_insertionSort _ _).symm, List.sorted_insertionSort _ _, ?_, rfl⟩
    have hrange : cands = List.range faqs.length := by
      rcases hc with ⟨_, hr⟩ | ⟨hne, _⟩
      · exact hr
      · exact absurd hemp hne
    apply pairwise_tie_insertionSort
    unfold scored_candidates_with
    rw [hrange]
    refine List.Pairwise.map _ ?_ (List.pairwise_lt_range _)
    intro a b hab _
    exact hab
  · intro sim
    refine ⟨⟨stable_sort_desc ((List.range faqs.length).map
      (fun i => Scored.mk i (faqs.getD i default) (sim i))),
      (List.perm_insertionSort _ _).symm, List.sorted_insertionSort _ _, ?_, rfl⟩,
      List.length_take_le _ _⟩
    apply pairwise_tie_insertionSort
    refine List.Pairwise.map _ ?_ (List.pairwise_lt_range _)
    intro a b hab _
    exact hab

/-- Witness for C5 (amended), exercising both the general hypothesis and
the fallback-path implication: on the corpus `[reset_faq]` the query
`"qqq"` hits no keyword, the candidate set is empty, and the admissible
enumeration is forced to be `range 1 = [0]`. -/
theorem claim_C5_witness :
    is_candidate_list (build_keyword_index [reset_faq]) [reset_faq].length "qqq" [0] ∧
    candidate_set (build_keyword_index [reset_faq]) "qqq" = ∅ ∧
    (∃ full : List Scored,
      (scored_candidates_with [reset_faq] [0] "qqq").Perm full ∧
      full.Pairwise (fun x y => y.score ≤ x.score) ∧
      full.Pairwise (fun x y => x.score = y.score → x.idx < y.idx) ∧
      find_best_match_with [reset_faq] [0] "qqq" 3 = full.take 3) ∧
    (find_best_match_with [reset_faq] [0] "qqq" 3).length ≤ 3 := by
  have h := claim_C5_ranking [reset_faq] (build_keyword_index [reset_faq]) "qqq" 3 [0]
    (by unfold is_candidate_list; decide)
  exact ⟨by unfold is_candidate_list; decide, by decide, h.2.2.1 (by decide), h.2.1⟩

/-- Counterexample to C5 as stated: on `tie_corpus` with query
`"aaa bbb"`, entries 1 and 9 are the candidates and score identically
(both 3/7), and the enumeration `[9, 1]` is admissible — it is the
CPython slot-order iteration when keyword `"aaa"` is processed before
`"bbb"` — yet the stable sort then returns the equal-scored pair as
index 9 before index 1, not in corpus order. The tie-break-by-corpus-
order guarantee is therefore not provided by the program. -/
theorem claim_C5_counterexample :
    is_candidate_list (build_keyword_index tie_corpus) tie_corpus.length "aaa bbb" [9, 1] ∧
    combined_score "aaa bbb" (tie_corpus.getD 9 default).question = 3/7 ∧
    combined_score "aaa bbb" (tie_corpus.getD 1 default).question = 3/7 ∧
    (find_best_match_with tie_corpus [9, 1] "aaa bbb" 3).map (fun s => s.idx) = [9, 1] := by
  have hs9 : combined_score "aaa bbb" aaa_ccc_faq.question = 3/7 := by
    have hk : keyword_match_score "aaa bbb" aaa_ccc_faq.question = 1/3 := by
      rw [keyword_match_score_eq_jaccard, if_neg (by decide)]
      have h1 : (extract_keywords "aaa bbb" ∩ extract_keywords aaa_ccc_faq.question).card
          = 1 := by decide
      have h2 : (extract_keywords "aaa bbb" ∪ extract_keywords aaa_ccc_faq.question).card
          = 3 := by decide
      rw [h1, h2]
      norm_num
    have hla : (preprocess_text "aaa bbb").toList.length = 7 := by decide
    have hlb : (preprocess_text aaa_ccc_faq.question).toList.length = 7 := by decide
    have hr : calculate_similarity "aaa bbb" aaa_ccc_faq.question = 4/7 := by
      unfold calculate_similarity sequence_ratio
      rw [hla, hlb]
      have hm : match_total (preprocess_text "aaa bbb").toList
          (preprocess_text aaa_ccc_faq.question).toList (7 + 7) 0 7 0 7 = 4 := by decide
      rw [if_neg (by norm_num), hm]
      norm_num
    unfold combined_score
    rw [hk, hr]
    norm_num
  have hs1 : combined_score "aaa bbb" ccc_bbb_faq.question = 3/7 := by
    have hk : keyword_match_score "aaa bbb" ccc_bbb_faq.question = 1/3 := by
      rw [keyword_match_score_eq_jaccard, if_neg (by decide)]
      have h1 : (extract_keywords "aaa bbb" ∩ extract_keywords ccc_bbb_faq.question).card
          = 1 := by decide
      have h2 : (extract_keywords "aaa bbb" ∪ extract_keywords ccc_bbb_faq.question).card
          = 3 := by decide
      rw [h1, h2]
      norm_num
    have hla : (preprocess_text "aaa bbb").toList.length = 7 := by decide
    have hlb : (preprocess_text ccc_bbb_faq.question).toList.length = 7 := by decide
    have hr : calculate_similarity "aaa bbb" ccc_bbb_faq.question = 4/7 := by
      unfold calculate_similarity sequence_ratio
      rw [hla, hlb]
      have hm : match_total (preprocess_text "aaa bbb").toList
          (preprocess_text ccc_bbb_faq.question).toList (7 + 7) 0 7 0 7 = 4 := by decide
      rw [if_neg (by norm_num), hm]
      norm_num
    unfold combined_score
    rw [hk, hr]
    norm_num
  refine ⟨by unfold is_candidate_list; decide, hs9, hs1, ?_⟩
  have hsc : scored_candidates_with tie_corpus [9, 1] "aaa bbb" =
      [Scored.mk 9 aaa_ccc_faq (combined_score "aaa bbb" aaa_ccc_faq.question),
       Scored.mk 1 ccc_bbb_faq (combined_score "aaa bbb" ccc_bbb_faq.question)] := rfl
  have hle : (Scored.mk 1 ccc_bbb_faq (combined_score "aaa bbb" ccc_bbb_faq.question)).score ≤
      (Scored.mk 9 aaa_ccc_faq (combined_score "aaa bbb" aaa_ccc_faq.question)).score := by
    show combined_score "aaa bbb" ccc_bbb_faq.question ≤
      combined_score "aaa bbb" aaa_ccc_faq.question
    rw [hs1, hs9]
  show (List.take 3 (stable_sort_desc (scored_candidates_with tie_corpus [9, 1] "aaa bbb"))).map
    (fun s => s.idx) = [9, 1]
  rw [hsc, stable_sort_desc_pair _ _ hle]
  rfl
